import Mathlib

/-!
Verification of the CES salary-sheet engine (header extraction, formula
templating, schema reconciliation, upload and export pipelines) against its
natural-language specification.

The Python source is shallowly embedded: strings are Lean `String`s
(character lists), Python `str.replace` / `in` / `strip` / `lower` are
modelled as executable functions below, dictionaries are association lists
with insertion order and in-place update, pandas rows are association lists
from column label to an optional cell string (`none` models NaN/None), and
raised-and-caught exceptions are `Except` values.
-/

namespace CES

/-! ## String primitives (Python `str` operations) -/

/-- Prefix test on character lists (`Bool`-valued). -/
def leadsWith : List Char → List Char → Bool
  | [], _ => true
  | _ :: _, [] => false
  | p :: ps, c :: cs => p == c && leadsWith ps cs

/-- Fuel-driven core of Python `str.replace`: replaces non-overlapping
occurrences of `pat` left to right.  Every call site passes a non-empty
`pat` and fuel at least the length of the scanned list, which makes this
exactly Python's semantics. -/
def replaceFuel (pat rep : List Char) : Nat → List Char → List Char
  | 0, s => s
  | _ + 1, [] => []
  | n + 1, c :: rest =>
    if leadsWith pat (c :: rest) then
      rep ++ replaceFuel pat rep n ((c :: rest).drop pat.length)
    else
      c :: replaceFuel pat rep n rest

/-- Python `s.replace(pat, rep)` (for non-empty `pat`). -/
def pyReplace (s pat rep : String) : String :=
  ⟨replaceFuel pat.data rep.data s.data.length s.data⟩

/-- Substring test on character lists: `containsSub s pat` models
Python `pat in s`. -/
def containsSub : List Char → List Char → Bool
  | [], pat => pat.isEmpty
  | c :: rest, pat => leadsWith pat (c :: rest) || containsSub rest pat

/-- Python `pat in s` for strings. -/
def strContains (s pat : String) : Bool :=
  containsSub s.data pat.data

/-- The whitespace characters recognized by Python `str.strip()`. -/
def isPySpace (c : Char) : Bool :=
  c == ' ' || c == '\t' || c == '\n' || c == '\r' || c == '\x0b' || c == '\x0c'

/-- Python `s.strip()` on a character list. -/
def pyStripL (s : List Char) : List Char :=
  ((s.dropWhile isPySpace).reverse.dropWhile isPySpace).reverse

/-- Python `s.strip()`. -/
def pyStrip (s : String) : String :=
  ⟨pyStripL s.data⟩

/-- ASCII lowering of one character, written as an explicit table so that
its fibers are easy to analyse.  (Python `str.lower` also lowers non-ASCII
letters; the sheets and claims in question are ASCII.) -/
def lowerChar (c : Char) : Char :=
  match c with
  | 'A' => 'a' | 'B' => 'b' | 'C' => 'c' | 'D' => 'd' | 'E' => 'e' | 'F' => 'f'
  | 'G' => 'g' | 'H' => 'h' | 'I' => 'i' | 'J' => 'j' | 'K' => 'k' | 'L' => 'l'
  | 'M' => 'm' | 'N' => 'n' | 'O' => 'o' | 'P' => 'p' | 'Q' => 'q' | 'R' => 'r'
  | 'S' => 's' | 'T' => 't' | 'U' => 'u' | 'V' => 'v' | 'W' => 'w' | 'X' => 'x'
  | 'Y' => 'y' | 'Z' => 'z'
  | c => c

/-- Python `s.lower()`. -/
def pyLower (s : String) : String :=
  ⟨s.data.map lowerChar⟩

/-! ## Column Normalizer (`sanitize_field_name`, `services/employee_service.py` 49-58) -/

/-- Function `sanitize_field_name` from `upload_employees`:
`name.replace(".", "").replace("$", "").replace("\n", " ").strip().lower()
.replace("  ", " ").replace(" ", "_")`. -/
def sanitize_field_name (name : String) : String :=
  pyReplace
    (pyReplace
      (pyLower (pyStrip (pyReplace (pyReplace (pyReplace name "." "") "$" "") "\n" " ")))
      "  " " ")
    " " "_"

/-! ## Schema validation (`utils/excel_utils.py` 9-13) -/

/-- The per-column normalizer used by `validate_excel_columns`:
`c.strip().lower()`. -/
def normTrim (c : String) : String :=
  pyLower (pyStrip c)

/-- Function `validate_excel_columns(actual_cols, expected_cols)`: set equality of the
stripped, lowercased column names (`set(actual_norm) == set(expected_norm)`). -/
def validate_excel_columns (actual_cols expected_cols : List String) : Bool :=
  let actual_norm := actual_cols.map normTrim
  let expected_norm := expected_cols.map normTrim
  actual_norm.all (fun x => expected_norm.contains x) &&
    expected_norm.all (fun x => actual_norm.contains x)

/-- Modelled from the spec: the *subset-strength* validation described in
spec section 4.4(a) — every expected column (case-insensitive, trimmed)
appears among the uploaded columns, extras allowed.  No operation of this
strength exists anywhere in the source; this definition exists only to be
compared with `validate_excel_columns`. -/
def validate_columns_subset_spec (actual_cols expected_cols : List String) : Bool :=
  (expected_cols.map normTrim).all (fun x => (actual_cols.map normTrim).contains x)

/-! ## Formula templating (`utils/excel_extraction.py` 103 and
`utils/excel_utils.py` 136) -/

/-- Line 103 of `extract_formulas_from_excel`: capture a formula found at
sheet row `dataRow` as a template, replacing every occurrence of the literal
row number with the placeholder: `formula.replace(str(data_row), "{row}")`. -/
def captureFormulaTemplate (dataRow : Nat) (formula : String) : String :=
  pyReplace formula (toString dataRow) "{row}"

/-- Line 136 of `create_excel_from_employees_with_formulas`: instantiate a
template at a concrete sheet row: `formula_template.replace("{row}", str(row_idx))`. -/
def applyFormulaTemplate (template : String) (rowIdx : Nat) : String :=
  pyReplace template "{row}" (toString rowIdx)

/-! ## Header Locator (`utils/excel_extraction.py` 6-45)

A worksheet read with `header=None` is modelled as a rectangular list of
rows, each cell already in its pandas string form (`fillna("")` makes blank
cells the empty string). -/

/-- The fixed domain indicator substrings of `extract_columns_from_excel`. -/
def indicators : List String :=
  ["sr", "emp", "id", "name", "email", "basic", "hra", "gross", "net", "tax", "deduction"]

/-- One cell of `row_strs` (already lowercased by `.str.lower()`) counts as a
keyword match when some indicator occurs in it. -/
def cellHasIndicator (cell : String) : Bool :=
  indicators.any (fun ind => strContains (pyLower cell) ind)

/-- Count `keyword_matches` for one row. -/
def keywordMatches (row : List String) : Nat :=
  (row.filter cellHasIndicator).length

/-- One cell counts as non-empty when its stripped lowercased text is
non-blank and does not contain `"unnamed"`. -/
def cellNonEmpty (cell : String) : Bool :=
  !(pyStrip (pyLower cell)).isEmpty && !(strContains (pyLower cell) "unnamed")

/-- Count `non_empty_cells` for one row. -/
def nonEmptyCells (row : List String) : Nat :=
  (row.filter cellNonEmpty).length

/-- A row qualifies as a header candidate:
`keyword_matches >= 3 and non_empty_cells >= len(row) * 0.5` (the float
comparison is exact, so it is `2 * non_empty_cells >= len(row)`). -/
def isHeaderCandidate (row : List String) : Bool :=
  decide (3 ≤ keywordMatches row) && decide (row.length ≤ 2 * nonEmptyCells row)

/-- The candidate list `[(i, keyword_matches)]` built over the previewed rows,
carrying the scan index. -/
def headerCandidatesAux (i : Nat) : List (List String) → List (Nat × Nat)
  | [] => []
  | row :: rest =>
    (if isHeaderCandidate row then [(i, keywordMatches row)] else []) ++
      headerCandidatesAux (i + 1) rest

/-- Candidates among the first 10 rows (`nrows=10`). -/
def headerCandidates (rows : List (List String)) : List (Nat × Nat) :=
  headerCandidatesAux 0 (rows.take 10)

/-- Python `max(candidates, key=lambda x: x[1])[0]`: the first candidate of
maximal score (a strictly greater score is needed to replace the champion). -/
def bestCandidate : List (Nat × Nat) → Option Nat
  | [] => none
  | c :: cs => some (cs.foldl (fun best x => if best.2 < x.2 then x else best) c).1

/-- The header-row index chosen by `extract_columns_from_excel` when no
explicit override is given: best candidate, else the fixed fallback row 2.
(The column cleaning the source performs on the chosen row is not needed by
the claims; the upload model below receives the cleaned columns as input.) -/
def extract_header_row_index (rows : List (List String)) : Nat :=
  match bestCandidate (headerCandidates rows) with
  | some i => i
  | none => 2

/-! ## Records and dictionaries

Python dictionaries (employee documents, pandas rows keyed by column label)
are association lists with insertion order; assignment updates in place. -/

/-- A nullable cell value: `none` is Python `None` (NaN after
`df.replace({nan: None, ...})`). -/
abbrev CellVal := Option String

/-- An open record / pandas row: ordered association list from key to value. -/
abbrev Rec := List (String × CellVal)

/-- Python dictionary assignment `d[k] = v`: update in place if the key
exists, else append. -/
def alUpsert {α : Type} (k : String) (v : α) (al : List (String × α)) : List (String × α) :=
  if al.any (fun kv => kv.1 = k) then
    al.map (fun kv => if kv.1 = k then (k, v) else kv)
  else
    al ++ [(k, v)]

/-- Python `k in d` / `d[k]` combined: `some v` when the key is present. -/
def alLookup {α : Type} (k : String) (al : List (String × α)) : Option α :=
  (al.find? (fun kv => kv.1 = k)).map (fun kv => kv.2)

/-- The keys of a record, in order. -/
def recKeys {α : Type} (al : List (String × α)) : List String :=
  al.map (fun kv => kv.1)

/-! ## Upload reconciliation (`services/employee_service.py` 44-150) -/

/-- The attendance denylist (lines 101-104). -/
def attendance_columns : List String :=
  ["no. of days in a month", "no. of days present"]

/-- The normalized denylist (line 105). -/
def attendance_columns_normalized : List String :=
  attendance_columns.map sanitize_field_name

/-- One step of the reconciliation loop body (lines 109-114): skip
denylisted columns, and copy `row[col]` under the normalized key only when
`col in row`. -/
def reconStep (row : Rec) (acc : Rec) (col : String) : Rec :=
  let norm_col := sanitize_field_name col
  if attendance_columns_normalized.contains norm_col then acc
  else
    match alLookup col row with
    | some v => alUpsert norm_col v acc
    | none => acc

/-- Record `sanitized_employee` as built for one row (lines 107-118), including the
`company_id` assignment. -/
def buildEmployeeRecord (companyId : String) (columns : List String) (row : Rec) : Rec :=
  alUpsert "company_id" (some companyId) (columns.foldl (reconStep row) [])

/-- Filter `df.dropna(how='all')` keeps a row iff some cell is non-null. -/
def keepRowDropna (row : Rec) : Bool :=
  row.any (fun kv => kv.2.isSome)

/-- Line 87: a row is removed when any cell's string representation contains
`"total"` case-insensitively (`str(None) = "None"` never does). -/
def rowMentionsTotal (row : Rec) : Bool :=
  row.any (fun kv =>
    match kv.2 with
    | some s => strContains (pyLower s) "total"
    | none => false)

/-- The email-likeness test of line 94: `"email" in c.lower()`. -/
def emailLike (c : String) : Bool :=
  strContains (pyLower c) "email"

/-- The document-match test of the `find_one` call (lines 127-130): same
`company_id` and a case-insensitive match of the stored email field against
the already-lowercased uploaded value.  (The source spells the match as the
anchored regex `^{email}$` with the `i` option, which on
metacharacter-free values is case-insensitive equality.) -/
def emailMatches (companyId emailCol emailValue : String) (doc : Rec) : Bool :=
  decide (alLookup "company_id" doc = some (some companyId)) &&
    (match alLookup emailCol doc with
     | some (some e) => decide (pyLower e = emailValue)
     | _ => false)

/-- Operation `update_one` on the first matching document: `$set` merges every field of
`upd` into it. -/
def updateFirst (cond : Rec → Bool) (upd : Rec) : List Rec → List Rec
  | [] => []
  | d :: rest =>
    if cond d then (upd.foldl (fun acc kv => alUpsert kv.1 kv.2 acc) d) :: rest
    else d :: updateFirst cond upd rest

/-- State threaded through the row loop: `(inserted, updated, skipped)` and
the employee collection. -/
abbrev UploadState := (Nat × Nat × Nat) × List Rec

/-- The body of the row loop (lines 107-140). -/
def uploadStep (companyId : String) (columns : List String) (emailCol : String)
    (st : UploadState) (row : Rec) : UploadState :=
  let counts := st.1
  let db := st.2
  let emp := buildEmployeeRecord companyId columns row
  match alLookup emailCol emp with
  | some (some s) =>
    if s = "" then ((counts.1, counts.2.1, counts.2.2 + 1), db)
    else
      let emailValue := pyLower (pyStrip s)
      if db.any (emailMatches companyId emailCol emailValue) then
        ((counts.1, counts.2.1 + 1, counts.2.2),
          updateFirst (emailMatches companyId emailCol emailValue) emp db)
      else
        ((counts.1 + 1, counts.2.1, counts.2.2), db ++ [emp])
  | _ => ((counts.1, counts.2.1, counts.2.2 + 1), db)

/-- Successful upload outcome: the returned counts and the resulting
employee collection. -/
structure UploadResult where
  inserted : Nat
  updated : Nat
  skipped : Nat
  db : List Rec
  deriving DecidableEq

/-- The part of `upload_employees` downstream of the row filters: find the
email column (line 94; the raised 400 is caught by the blanket
`except Exception` of line 149 and rewrapped as a 500 whose message is
`"Upload failed: " + str(e)`, and `str` of an `HTTPException` is
`"{status_code}: {detail}"`), then fold the row loop. -/
def uploadAfterFilters (companyId : String) (columns : List String)
    (rows : List Rec) (db : List Rec) : Except (Nat × String) UploadResult :=
  match columns.find? emailLike with
  | none => .error (500, "Upload failed: 400: No 'email' column found in uploaded sheet.")
  | some email_col =>
    let st := rows.foldl (uploadStep companyId columns (sanitize_field_name email_col))
      ((0, 0, 0), db)
    .ok ⟨st.1.1, st.1.2.1, st.1.2.2, st.2⟩

/-- Function `upload_employees` after header extraction, as a function of the
extracted columns, the parsed data rows and the stored collection.  The
column-mismatch 400 of line 80 is likewise rewrapped as a 500 by line 149
(its detail string interpolates both column lists; the text is abbreviated
here since no claim concerns it). -/
def upload_employees (companyId : String) (expected_columns columns : List String)
    (rows : List Rec) (db : List Rec) : Except (Nat × String) UploadResult :=
  if validate_excel_columns columns expected_columns then
    let rows2 := (rows.filter keepRowDropna).filter (fun r => !rowMentionsTotal r)
    uploadAfterFilters companyId columns rows2 db
  else
    .error (500, "Upload failed: 400: Column mismatch")

/-! ## Workbook Generator (`utils/excel_utils.py` 38-144)

The generated worksheet is modelled as the ordered list of cell writes the
function performs (openpyxl cell assignments); the content of a cell is the
last write at its coordinate.  Styling-only operations (fonts, borders,
merges, column widths) write no cell content and are omitted. -/

/-- What a write puts into a cell: a literal value (possibly blank) or a
formula string left unevaluated. -/
inductive CellWrite where
  | lit : CellVal → CellWrite
  | formula : String → CellWrite
  deriving DecidableEq

/-- One cell write: (1-based row, 1-based column) and content. -/
abbrev SheetWrite := (Nat × Nat) × CellWrite

/-- The content of a cell after a sequence of writes: the last write at the
coordinate wins. -/
def cellAt : List SheetWrite → Nat × Nat → Option CellWrite
  | [], _ => none
  | w :: rest, p =>
    match cellAt rest p with
    | some v => some v
    | none => if w.1 = p then some w.2 else none

/-- Lines 60-67: project one employee document onto a column by
case-insensitive key lookup, `None` when no key matches. -/
def projectValue (emp : Rec) (col : String) : CellVal :=
  match emp.find? (fun kv => pyLower kv.1 = pyLower col) with
  | some kv => kv.2
  | none => none

/-- The header labels written at sheet row 3 by `df.to_excel(startrow=2)`. -/
def headerWrites (startCol : Nat) : List String → List SheetWrite
  | [] => []
  | col :: rest => ((3, startCol), .lit (some col)) :: headerWrites (startCol + 1) rest

/-- The cells of one data row as written by `df.to_excel`. -/
def rowWrites (r startCol : Nat) (emp : Rec) : List String → List SheetWrite
  | [] => []
  | col :: rest => ((r, startCol), .lit (projectValue emp col)) :: rowWrites r (startCol + 1) emp rest

/-- The data block: one row per employee starting at sheet row 4. -/
def dataWrites (startRow : Nat) (columns : List String) : List Rec → List SheetWrite
  | [] => []
  | emp :: rest => rowWrites startRow 1 emp columns ++ dataWrites (startRow + 1) columns rest

/-- Line 129-132: the 1-based index of the first column whose lowercased name
equals the lowercased template key. -/
def findColIdx (columns : List String) (name : String) : Option Nat :=
  (columns.findIdx? (fun col => pyLower col = pyLower name)).map (fun i => i + 1)

/-- The formula writes of one sheet row `r` (the inner loop of lines
126-141), in `formula_mapping` iteration order. -/
def formulaRowWrites (columns : List String) (mapping : List (String × String))
    (r : Nat) : List SheetWrite :=
  mapping.filterMap (fun e =>
    (findColIdx columns e.1).map (fun cidx =>
      ((r, cidx), CellWrite.formula (applyFormulaTemplate e.2 r))))

/-- The formula pass over data rows `startRow .. startRow + n - 1`
(`range(4, len(df) + 4)`). -/
def formulaWrites (columns : List String) (mapping : List (String × String))
    (startRow : Nat) : Nat → List SheetWrite
  | 0 => []
  | n + 1 => formulaRowWrites columns mapping startRow ++
      formulaWrites columns mapping (startRow + 1) n

/-- Function `create_excel_from_employees_with_formulas` as the list of cell writes it
performs, in program order: title cells (rows 1), header labels (row 3,
via `df.to_excel(startrow=2)`), data cells (rows 4..), then — when the
mapping is non-empty (`if formula_mapping:`) — the formula pass overwriting
formula-derived cells.  `month_year`, derived from the wall clock in the
source, is a parameter. -/
def create_excel_from_employees_with_formulas (employees : List Rec)
    (columns : List String) (company_name month_year : String)
    (formula_mapping : List (String × String)) : List SheetWrite :=
  [((1, 1), .lit (some (company_name ++ " SALARY SHEET"))),
   ((1, 5), .lit (some month_year))] ++
  headerWrites 1 columns ++
  dataWrites 4 columns employees ++
  (if formula_mapping.isEmpty then []
   else formulaWrites columns formula_mapping 4 employees.length)

/-! ## Export fallback synthesis (`services/employee_service.py` 270-389)

Inside `export_employees` the name `get_column_letter` is a *local* name,
bound only by the `from openpyxl.utils import get_column_letter` statement
at line 374; the fallback-synthesis block at lines 299-361 runs before that
statement, so every use of the name there raises `UnboundLocalError`.  The
model threads the binding explicitly as an `Option`: `none` before that
statement runs, and a use while `none` is the error. -/

/-- Errors leaving `export_employees`: a raised `HTTPException`, or an
uncaught Python `UnboundLocalError` (which the web layer surfaces as an
internal server error). -/
inductive PyErr where
  | http : Nat → String → PyErr
  | unboundLocal : String → PyErr
  deriving DecidableEq

/-- A use of the local name `get_column_letter`: errors while unbound. -/
def callColumnLetter (bound : Option (Nat → String)) (n : Nat) : Except PyErr String :=
  match bound with
  | none => .error (.unboundLocal "get_column_letter")
  | some f => .ok (f n)

/-- Line 305: `{col.lower(): idx for idx, col in enumerate(columns)}` as an
insertion-ordered dictionary (duplicate lowered names keep their first
position, last value). -/
def columnIndicesAux (i : Nat) : List String → List (String × Nat) → List (String × Nat)
  | [], acc => acc
  | col :: rest, acc => columnIndicesAux (i + 1) rest (alUpsert (pyLower col) i acc)

/-- Dictionary `column_indices` of line 305. -/
def columnIndices (columns : List String) : List (String × Nat) :=
  columnIndicesAux 0 columns []

/-- Line 312: `"gross" in col and "amount" in col`. -/
def grossPred (e : String × Nat) : Bool :=
  strContains e.1 "gross" && strContains e.1 "amount"

/-- Line 316: `"total" in col and "ded" in col`. -/
def dedPred (e : String × Nat) : Bool :=
  strContains e.1 "total" && strContains e.1 "ded"

/-- Line 320: `"net" in col and "amt" in col`. -/
def netPred (e : String × Nat) : Bool :=
  strContains e.1 "net" && strContains e.1 "amt"

/-- The allowance-like terms of line 327. -/
def allowanceTerms : List String :=
  ["basic", "hra", "allow", "education", "reimb", "lta", "medical", "attire", "sp.all"]

/-- The deduction-like terms of line 343. -/
def deductionTerms : List String :=
  ["tax", "tds", "p. f", "pf", "esic", "advance", "deduction"]

/-- The entries of `column_indices` selected by the allowance loop of lines
326-333 (an allowance term occurs and the index differs from the gross
column's). -/
def allowEntries (ci : List (String × Nat)) (grossIdx : Nat) : List (String × Nat) :=
  ci.filter (fun e => allowanceTerms.any (fun t => strContains e.1 t) && decide (e.2 ≠ grossIdx))

/-- The entries selected by the deduction loop of lines 342-348. -/
def dedEntries (ci : List (String × Nat)) (dedIdx : Nat) : List (String × Nat) :=
  ci.filter (fun e => deductionTerms.any (fun t => strContains e.1 t) && decide (e.2 ≠ dedIdx))

/-- Python `"+".join` of the collected parts. -/
def joinPlus : List String → String
  | [] => ""
  | [s] => s
  | s :: rest => s ++ "+" ++ joinPlus rest

/-- The loop collecting `f"{get_column_letter(idx + 1)}{{row}}"` for each
selected entry; the first use of the unbound name raises. -/
def buildParts (bound : Option (Nat → String)) : List (String × Nat) → Except PyErr (List String)
  | [] => .ok []
  | e :: rest =>
    match callColumnLetter bound (e.2 + 1) with
    | .error err => .error err
    | .ok letter =>
      match buildParts bound rest with
      | .error err => .error err
      | .ok parts => .ok ((letter ++ "{row}") :: parts)

/-- Line 359: the synthesized net-amount formula
`f"={gross_col_letter}{{row}}-{ded_col_letter}{{row}}"`. -/
def netFormula (bound : Option (Nat → String)) (grossIdx dedIdx : Nat) : Except PyErr String :=
  match callColumnLetter bound (grossIdx + 1) with
  | .error err => .error err
  | .ok g =>
    match callColumnLetter bound (dedIdx + 1) with
    | .error err => .error err
    | .ok d => .ok ("=" ++ g ++ "{row}" ++ "-" ++ d ++ "{row}")

/-- The `default_formulas` synthesis of lines 300-361, with the binding
state of `get_column_letter` passed in (`none` at this point of the source). -/
def computeDefaultFormulas (bound : Option (Nat → String)) (columns : List String) :
    Except PyErr (List (String × String)) :=
  let ci := columnIndices columns
  let step1 : Except PyErr (List (String × String)) :=
    match ci.find? grossPred with
    | none => .ok []
    | some ge =>
      match buildParts bound (allowEntries ci ge.2) with
      | .error err => .error err
      | .ok parts =>
        .ok (if parts.isEmpty then []
             else alUpsert (columns.getD ge.2 "") ("=" ++ joinPlus parts) [])
  match step1 with
  | .error err => .error err
  | .ok f1 =>
    let step2 : Except PyErr (List (String × String)) :=
      match ci.find? dedPred with
      | none => .ok f1
      | some de =>
        match buildParts bound (dedEntries ci de.2) with
        | .error err => .error err
        | .ok parts =>
          .ok (if parts.isEmpty then f1
               else alUpsert (columns.getD de.2 "") ("=" ++ joinPlus parts) f1)
    match step2 with
    | .error err => .error err
    | .ok f2 =>
      match ci.find? grossPred, ci.find? dedPred, ci.find? netPred with
      | some ge, some de, some ne =>
        match netFormula bound ge.2 de.2 with
        | .error err => .error err
        | .ok s => .ok (alUpsert (columns.getD ne.2 "") s f2)
      | _, _, _ => .ok f2

/-- Function `export_employees` as a function of the company's stored column list and
formula map and the employee documents matching the query: when the stored
map is empty (`if not formula_mapping:`) the fallback synthesis runs with
`get_column_letter` still unbound; then the 404 check of line 368, then the
workbook generation (total, so the try/except of lines 377-389 never
fires). -/
def export_employees (columns : List String) (storedFormulas : List (String × String))
    (employees : List Rec) (companyName monthYear : String) :
    Except PyErr (List SheetWrite) :=
  let fmaps : Except PyErr (List (String × String)) :=
    if storedFormulas.isEmpty then computeDefaultFormulas none columns
    else .ok storedFormulas
  match fmaps with
  | .error err => .error err
  | .ok fm =>
    if employees.isEmpty then .error (.http 404 "No employees found")
    else .ok (create_excel_from_employees_with_formulas employees columns companyName monthYear fm)

/-! ## Generic lemmas about the string primitives -/

theorem mem_replaceFuel {x : Char} {pat rep : List Char} :
    ∀ {n : Nat} {s : List Char}, x ∈ replaceFuel pat rep n s → x ∈ rep ∨ x ∈ s := by
  intro n
  induction n with
  | zero => intro s h; exact Or.inr h
  | succ n ih =>
    intro s h
    match s with
    | [] => simp [replaceFuel] at h
    | c :: rest =>
      rw [replaceFuel] at h
      by_cases hp : leadsWith pat (c :: rest) = true
      · rw [if_pos hp] at h
        rcases List.mem_append.mp h with h1 | h2
        · exact Or.inl h1
        · rcases ih h2 with h3 | h4
          · exact Or.inl h3
          · exact Or.inr (List.mem_of_mem_drop h4)
      · rw [if_neg hp] at h
        rcases List.mem_cons.mp h with h1 | h2
        · exact Or.inr (h1 ▸ List.mem_cons_self c rest)
        · rcases ih h2 with h3 | h4
          · exact Or.inl h3
          · exact Or.inr (List.mem_cons_of_mem c h4)

theorem not_mem_replaceFuel_single {c : Char} {rep : List Char} (hc : c ∉ rep) :
    ∀ {n : Nat} {s : List Char}, s.length ≤ n → c ∉ replaceFuel [c] rep n s := by
  intro n
  induction n with
  | zero =>
    intro s hlen
    match s with
    | [] => simp [replaceFuel]
    | _ :: _ => simp at hlen
  | succ n ih =>
    intro s hlen
    match s with
    | [] => simp [replaceFuel]
    | c' :: rest =>
      rw [replaceFuel]
      by_cases hcc : c = c'
      · have hp : leadsWith [c] (c' :: rest) = true := by
          simp [leadsWith, hcc]
        rw [if_pos hp]
        intro hmem
        rcases List.mem_append.mp hmem with h1 | h2
        · exact hc h1
        · have : rest.length ≤ n := by simpa using Nat.le_of_succ_le_succ hlen
          exact ih this (by simpa using h2)
      · have hp : leadsWith [c] (c' :: rest) = false := by
          simp [leadsWith]
          intro h
          exact absurd h hcc
        rw [hp]
        simp only [Bool.false_eq_true, if_false]
        intro hmem
        rcases List.mem_cons.mp hmem with h1 | h2
        · exact hcc h1
        · exact ih (by simpa using Nat.le_of_succ_le_succ hlen) h2

theorem mem_pyStripL {x : Char} {s : List Char} (h : x ∈ pyStripL s) : x ∈ s := by
  unfold pyStripL at h
  rw [List.mem_reverse] at h
  have h1 := (List.dropWhile_sublist (l := (s.dropWhile isPySpace).reverse)
    (p := isPySpace)).mem h
  rw [List.mem_reverse] at h1
  exact (List.dropWhile_sublist (l := s) (p := isPySpace)).mem h1

/-- The lowercase ASCII letters, the only characters `lowerChar` can
introduce. -/
def lowercaseLetters : List Char :=
  ['a', 'b', 'c', 'd', 'e', 'f', 'g', 'h', 'i', 'j', 'k', 'l', 'm',
   'n', 'o', 'p', 'q', 'r', 's', 't', 'u', 'v', 'w', 'x', 'y', 'z']

theorem lowerChar_eq_self_or_letter (c : Char) :
    lowerChar c = c ∨ lowerChar c ∈ lowercaseLetters := by
  unfold lowerChar
  split
  all_goals first
    | exact Or.inl rfl
    | exact Or.inr (by decide)

theorem mem_map_lowerChar {x : Char} {s : List Char}
    (h : x ∈ s.map lowerChar) (hx : x ∉ lowercaseLetters) : x ∈ s := by
  rcases List.mem_map.mp h with ⟨y, hy, hxy⟩
  rcases lowerChar_eq_self_or_letter y with h1 | h2
  · rw [h1] at hxy; exact hxy ▸ hy
  · exact absurd (hxy ▸ h2) hx

/-! ## Claim C1 — formula template round-trip -/

/-- The capture step replaces *every* occurrence of the row's digit string
(line 103 is a plain `str.replace`), so a reference such as `A15` that
merely contains the digit `5` is also rewritten: capturing `=B5+A15` at
data row 5 and instantiating at row 9 yields `=B9+A19`, not the `=B9+A15`
the claim requires. -/
theorem claim1_counterexample :
    applyFormulaTemplate (captureFormulaTemplate 5 "=B5+A15") 9 = "=B9+A19" ∧
      ("=B9+A19" : String) ≠ "=B9+A15" := by
  constructor
  · rfl
  · decide

theorem pyReplace_template_B (rep : String) :
    pyReplace "=B{row}" "{row}" rep = "=B" ++ rep := by
  obtain ⟨l⟩ := rep
  show String.mk ('=' :: 'B' :: (l ++ [])) = String.mk ('=' :: 'B' :: l)
  simp

theorem pyReplace_template_DE (rep : String) :
    pyReplace "=D{row}+E{row}" "{row}" rep = "=D" ++ rep ++ "+E" ++ rep := by
  obtain ⟨l⟩ := rep
  show String.mk ('=' :: 'D' :: (l ++ '+' :: 'E' :: (l ++ []))) =
    String.mk ((('=' :: 'D' :: l) ++ ['+', 'E']) ++ l)
  simp

/-- Claim C1, amended: the capture/instantiate round trip re-targets a row
reference correctly whenever the row's digit string occurs in the formula
only as those row references — e.g. `=B5` captured at row 5 instantiates at
any row `r` as `=B` followed by `r`, and `=D5+E5` as `=D{r}+E{r}` — but
(per the counterexample) any other occurrence of the digits is rewritten as
well. -/
theorem claim1_amended_roundtrip (r : Nat) :
    applyFormulaTemplate (captureFormulaTemplate 5 "=B5") r = "=B" ++ toString r ∧
      applyFormulaTemplate (captureFormulaTemplate 5 "=D5+E5") r =
        "=D" ++ toString r ++ "+E" ++ toString r := by
  have h1 : captureFormulaTemplate 5 "=B5" = "=B{row}" := rfl
  have h2 : captureFormulaTemplate 5 "=D5+E5" = "=D{row}+E{row}" := rfl
  rw [h1, h2]
  exact ⟨pyReplace_template_B (toString r), pyReplace_template_DE (toString r)⟩

/-! ## Claim C3 — validation strengths -/

/-- The only validation operation in the source, `validate_excel_columns`,
implements the set-equality strength and therefore returns `false` on the
claim's subset example, on which the claimed subset-strength operation (not
present in the source) would return `true`. -/
theorem claim3_counterexample :
    validate_excel_columns ["A", "B", "C"] ["A", "B"] = false ∧
      validate_columns_subset_spec ["A", "B", "C"] ["A", "B"] = true := by
  decide

/-- Claim C3, amended: the source supports exactly one validation strength —
`validate_excel_columns`, which succeeds iff the stripped lowercased column
sets coincide (no subset-strength operation exists in the code). -/
theorem claim3_amended_equality_only (actual expected : List String) :
    validate_excel_columns actual expected = true ↔
      (∀ s, s ∈ actual.map normTrim ↔ s ∈ expected.map normTrim) := by
  unfold validate_excel_columns
  simp only [Bool.and_eq_true, List.all_eq_true]
  constructor
  · rintro ⟨h1, h2⟩ s
    exact ⟨fun hs => List.elem_iff.mp (h1 s hs), fun hs => List.elem_iff.mp (h2 s hs)⟩
  · intro h
    exact ⟨fun s hs => List.elem_iff.mpr ((h s).mp hs),
      fun s hs => List.elem_iff.mpr ((h s).mpr hs)⟩

/-! ## Claim C7 — header-locator fallback -/

theorem headerCandidatesAux_eq_nil (l : List (List String))
    (h : ∀ row ∈ l, keywordMatches row < 3) :
    ∀ i, headerCandidatesAux i l = [] := by
  induction l with
  | nil => intro i; rfl
  | cons row rest ih =>
    intro i
    have hrow : isHeaderCandidate row = false := by
      unfold isHeaderCandidate
      have : ¬(3 ≤ keywordMatches row) :=
        Nat.not_le_of_lt (h row (List.mem_cons_self row rest))
      simp [this]
    rw [headerCandidatesAux, hrow]
    simpa using ih (fun r hr => h r (List.mem_cons_of_mem row hr)) (i + 1)

/-- Claim C7: when no row among the first 10 reaches 3 keyword matches,
there are no header candidates and the fallback row index 2 is returned. -/
theorem claim7_fallback (rows : List (List String))
    (h : ∀ row ∈ rows.take 10, keywordMatches row < 3) :
    headerCandidates rows = [] ∧ extract_header_row_index rows = 2 := by
  have hc : headerCandidates rows = [] :=
    headerCandidatesAux_eq_nil (rows.take 10) h 0
  refine ⟨hc, ?_⟩
  unfold extract_header_row_index
  rw [hc]
  rfl

theorem claim7_fallback_witness :
    (∀ row ∈ ([["x"], ["y", ""]] : List (List String)).take 10, keywordMatches row < 3) ∧
      (headerCandidates [["x"], ["y", ""]] = [] ∧
        extract_header_row_index [["x"], ["y", ""]] = 2) :=
  ⟨by decide, claim7_fallback [["x"], ["y", ""]] (by decide)⟩

/-! ## Claim C8 — storage normalization -/

/-- Modelled from the claim's words: output shape `[a-z0-9_]*` with no two
consecutive underscores.  Used only to state the counterexample. -/
def storageSafeChar (c : Char) : Bool :=
  ('a' ≤ c && c ≤ 'z') || ('0' ≤ c && c ≤ '9') || c == '_'

/-- Modelled from the claim's words: no two consecutive underscores. -/
def noDoubleUnderscore : List Char → Bool
  | c1 :: c2 :: rest => !(c1 == '_' && c2 == '_') && noDoubleUnderscore (c2 :: rest)
  | _ => true

/-- Modelled from the claim's words: the output property the claim asserts
of every `sanitize_field_name` result. -/
def isStorageSafe (s : String) : Bool :=
  s.data.all storageSafeChar && noDoubleUnderscore s.data

/-- Function `sanitize_field_name` neither touches `-` (nor `/`, `\`) nor drops
characters outside `[a-z0-9_]`, and its double-space collapse is a single
pass, so three spaces become two underscores: both outputs below violate
the claimed output shape. -/
theorem claim8_counterexample :
    sanitize_field_name "a-b" = "a-b" ∧ isStorageSafe "a-b" = false ∧
      sanitize_field_name "a   b" = "a__b" ∧ isStorageSafe "a__b" = false := by
  refine ⟨rfl, by decide, rfl, by decide⟩

theorem data_pyReplace (s pat rep : String) :
    (pyReplace s pat rep).data = replaceFuel pat.data rep.data s.data.length s.data := rfl

theorem data_pyLower (s : String) : (pyLower s).data = s.data.map lowerChar := rfl

theorem data_pyStrip (s : String) : (pyStrip s).data = pyStripL s.data := rfl

/-- Claim C8, amended: what does hold of `sanitize_field_name` is that its
output never contains a `'.'`, `'$'`, newline or space (dots and dollars
are deleted, newlines become spaces, and every space ends up an
underscore); the remaining asserted behaviour — mapping `/`, `\`, `-` to
underscores, collapsing underscore runs, and dropping other characters —
is absent from the code (see the counterexample). -/
theorem claim8_amended_eliminated_chars (s : String) :
    ' ' ∉ (sanitize_field_name s).data ∧ '.' ∉ (sanitize_field_name s).data ∧
      '$' ∉ (sanitize_field_name s).data ∧ '\n' ∉ (sanitize_field_name s).data := by
  unfold sanitize_field_name
  set t1 := pyReplace s "." "" with ht1
  set t2 := pyReplace t1 "$" "" with ht2
  set t3 := pyReplace t2 "\n" " " with ht3
  set t4 := pyStrip t3 with ht4
  set t5 := pyLower t4 with ht5
  set t6 := pyReplace t5 "  " " " with ht6
  have hdot1 : '.' ∉ t1.data := by
    rw [ht1, data_pyReplace]
    exact not_mem_replaceFuel_single (by decide) (Nat.le_refl _)
  have hdot2 : '.' ∉ t2.data := by
    intro h2
    rw [ht2, data_pyReplace] at h2
    rcases mem_replaceFuel h2 with hm | hm
    · exact absurd (show '.' ∈ ([] : List Char) from hm) (List.not_mem_nil '.')
    · exact hdot1 hm
  have hdollar2 : '$' ∉ t2.data := by
    rw [ht2, data_pyReplace]
    exact not_mem_replaceFuel_single (by decide) (Nat.le_refl _)
  have hnl3 : '\n' ∉ t3.data := by
    rw [ht3, data_pyReplace]
    exact not_mem_replaceFuel_single (by decide) (Nat.le_refl _)
  have step23 : ∀ c : Char, c ∉ t2.data → c ≠ ' ' → c ∉ t3.data := by
    intro c h2 hsp h3
    rw [ht3, data_pyReplace] at h3
    rcases mem_replaceFuel h3 with hm | hm
    · exact hsp (List.mem_singleton.mp (show c ∈ [' '] from hm))
    · exact h2 hm
  have step34 : ∀ c : Char, c ∉ t3.data → c ∉ t4.data := by
    intro c h3 h4
    rw [ht4, data_pyStrip] at h4
    exact h3 (mem_pyStripL h4)
  have step45 : ∀ c : Char, c ∉ t4.data → c ∉ lowercaseLetters → c ∉ t5.data := by
    intro c h4 hlc h5
    rw [ht5, data_pyLower] at h5
    exact h4 (mem_map_lowerChar h5 hlc)
  have step56 : ∀ c : Char, c ∉ t5.data → c ≠ ' ' → c ∉ t6.data := by
    intro c h5 hsp h6
    rw [ht6, data_pyReplace] at h6
    rcases mem_replaceFuel h6 with hm | hm
    · exact hsp (List.mem_singleton.mp (show c ∈ [' '] from hm))
    · exact h5 hm
  have step67 : ∀ c : Char, c ∉ t6.data → c ≠ '_' → c ∉ (pyReplace t6 " " "_").data := by
    intro c h6 hus h7
    rw [data_pyReplace] at h7
    rcases mem_replaceFuel h7 with hm | hm
    · exact hus (List.mem_singleton.mp (show c ∈ ['_'] from hm))
    · exact h6 hm
  refine ⟨?_, ?_, ?_, ?_⟩
  · rw [data_pyReplace]
    exact not_mem_replaceFuel_single (by decide) (Nat.le_refl _)
  · exact step67 '.'
      (step56 '.' (step45 '.' (step34 '.' (step23 '.' hdot2 (by decide))) (by decide))
        (by decide)) (by decide)
  · exact step67 '$'
      (step56 '$' (step45 '$' (step34 '$' (step23 '$' hdollar2 (by decide))) (by decide))
        (by decide)) (by decide)
  · exact step67 '\n'
      (step56 '\n' (step45 '\n' (step34 '\n' hnl3) (by decide)) (by decide)) (by decide)

/-! ## Claim C2 — reconciliation completeness -/

/-- The loop of lines 109-114 only writes a key when the column's exact
label occurs among the row's keys (`if col in row:`); a column absent from
the row leaves its normalized key out of the record entirely, refuting
"the key is never absent". -/
theorem claim2_counterexample :
    "basic_pay" ∉ recKeys
        (buildEmployeeRecord "c1" ["Email", "Basic Pay"] [("Email", some "a@x.com")]) ∧
      sanitize_field_name "Basic Pay" = "basic_pay" ∧
      attendance_columns_normalized.contains "basic_pay" = false := by
  decide

theorem mem_recKeys_alUpsert {α : Type} (k : String) (v : α) (al : List (String × α))
    (k' : String) :
    k' ∈ recKeys (alUpsert k v al) ↔ k' = k ∨ k' ∈ recKeys al := by
  unfold alUpsert recKeys
  by_cases h : (al.any fun kv => kv.1 = k) = true
  · rw [if_pos h]
    have hkeys : (al.map fun kv => if kv.1 = k then (k, v) else kv).map (fun kv => kv.1) =
        al.map (fun kv => kv.1) := by
      rw [List.map_map]
      apply List.map_congr_left
      intro kv _
      by_cases hkv : kv.1 = k
      · simp [hkv]
      · simp [hkv]
    rw [hkeys]
    have hk : k ∈ al.map (fun kv => kv.1) := by
      rcases List.any_eq_true.mp h with ⟨kv, hkv, hkveq⟩
      exact List.mem_map.mpr ⟨kv, hkv, of_decide_eq_true hkveq⟩
    constructor
    · exact fun hmem => Or.inr hmem
    · rintro (rfl | hmem)
      · exact hk
      · exact hmem
  · rw [if_neg h]
    simp only [List.map_append, List.map_cons, List.map_nil, List.mem_append,
      List.mem_singleton]
    exact Or.comm

theorem mem_recKeys_reconFoldl (row : Rec) :
    ∀ (cols : List String) (acc : Rec) (k : String),
      k ∈ recKeys (cols.foldl (reconStep row) acc) ↔
        k ∈ recKeys acc ∨ ∃ col ∈ cols, sanitize_field_name col = k ∧
          attendance_columns_normalized.contains k = false ∧
          (alLookup col row).isSome = true := by
  intro cols
  induction cols with
  | nil => intro acc k; simp
  | cons col rest ih =>
    intro acc k
    rw [List.foldl_cons, ih, List.exists_mem_cons_iff]
    unfold reconStep
    by_cases hden : attendance_columns_normalized.contains (sanitize_field_name col) = true
    · rw [if_pos hden]
      have hP : ¬(sanitize_field_name col = k ∧
          attendance_columns_normalized.contains k = false ∧
          (alLookup col row).isSome = true) := by
        rintro ⟨he, hc, -⟩
        rw [← he, hden] at hc
        exact absurd hc (by decide)
      constructor
      · rintro (h | h)
        · exact Or.inl h
        · exact Or.inr (Or.inr h)
      · rintro (h | hcol | h)
        · exact Or.inl h
        · exact absurd hcol hP
        · exact Or.inr h
    · rw [if_neg hden]
      have hden' : attendance_columns_normalized.contains (sanitize_field_name col) = false := by
        simpa using hden
      cases hlk : alLookup col row with
      | none =>
        simp only [hlk]
        have hP : ¬(sanitize_field_name col = k ∧
            attendance_columns_normalized.contains k = false ∧
            (none : Option CellVal).isSome = true) := by
          rintro ⟨-, -, hs⟩
          simp at hs
        constructor
        · rintro (h | h)
          · exact Or.inl h
          · exact Or.inr (Or.inr h)
        · rintro (h | hcol | h)
          · exact Or.inl h
          · exact absurd hcol hP
          · exact Or.inr h
      | some v =>
        simp only [hlk]
        rw [mem_recKeys_alUpsert]
        have hP : k = sanitize_field_name col ↔
            (sanitize_field_name col = k ∧
              attendance_columns_normalized.contains k = false ∧
              (some v : Option CellVal).isSome = true) := by
          constructor
          · rintro rfl
            exact ⟨rfl, hden', rfl⟩
          · rintro ⟨he, -, -⟩
            exact he.symm
        constructor
        · rintro ((he | h) | h)
          · exact Or.inr (Or.inl (hP.mp he))
          · exact Or.inl h
          · exact Or.inr (Or.inr h)
        · rintro (h | hcol | h)
          · exact Or.inl (Or.inr h)
          · exact Or.inl (Or.inl (hP.mpr hcol))
          · exact Or.inr h

/-- Claim C2, amended: a produced record's key set is exactly `company_id`
together with the normalized names of those uploaded columns that are not
attendance-denylisted and whose exact label occurs among the row's keys;
a column with no matching label in the row is omitted from the record (no
null fill), contrary to the claim. -/
theorem claim2_amended_key_characterization (companyId : String) (columns : List String)
    (row : Rec) (k : String) :
    k ∈ recKeys (buildEmployeeRecord companyId columns row) ↔
      k = "company_id" ∨ ∃ col ∈ columns, sanitize_field_name col = k ∧
        attendance_columns_normalized.contains k = false ∧
        (alLookup col row).isSome = true := by
  unfold buildEmployeeRecord
  rw [mem_recKeys_alUpsert, mem_recKeys_reconFoldl]
  simp [recKeys]

/-! ## Claim C6 — missing email column -/

/-- The falsiness test of line 121 on `employee.get(sanitized_email_col, "")`:
an absent key defaults to `""` (falsy), a `None` value is falsy, and a
string is falsy exactly when empty. -/
def emailValueFalsy (emp : Rec) (emailCol : String) : Bool :=
  match alLookup emailCol emp with
  | some (some s) => decide (s = "")
  | _ => true

/-- The `raise HTTPException(status_code=400, ...)` of line 96 sits inside
the `try:` of line 66, so the blanket `except Exception` of line 149
rewraps it: the operation surfaces a 500, not the 400 the claim states
(no write happens, as claimed). -/
theorem claim6_counterexample :
    upload_employees "c1" ["Name"] ["Name"] [] [] =
      .error (500, "Upload failed: 400: No 'email' column found in uploaded sheet.") ∧
      (500 : Nat) ≠ 400 :=
  ⟨rfl, by decide⟩

/-- Claim C6, amended: with no email-like column the upload aborts before
any write and returns an error — but as a 500 (`"Upload failed: ..."`),
because the 400 `HTTPException` is swallowed by the blanket handler; a row
whose email value is unpopulated is counted as skipped and triggers no
insert or update. -/
theorem claim6_amended :
    (∀ (companyId : String) (expected columns : List String) (rows db : List Rec),
       validate_excel_columns columns expected = true →
       columns.find? emailLike = none →
       upload_employees companyId expected columns rows db =
         .error (500, "Upload failed: 400: No 'email' column found in uploaded sheet.")) ∧
    (∀ (companyId : String) (expected columns : List String) (db : List Rec) (r : Rec)
       (email_col : String),
       validate_excel_columns columns expected = true →
       columns.find? emailLike = some email_col →
       keepRowDropna r = true → rowMentionsTotal r = false →
       emailValueFalsy (buildEmployeeRecord companyId columns r)
         (sanitize_field_name email_col) = true →
       upload_employees companyId expected columns [r] db = .ok ⟨0, 0, 1, db⟩) := by
  constructor
  · intro companyId expected columns rows db hval hfind
    unfold upload_employees
    rw [if_pos hval]
    unfold uploadAfterFilters
    rw [hfind]
  · intro companyId expected columns db r email_col hval hfind hkeep htot hfalsy
    unfold upload_employees
    rw [if_pos hval]
    have hrows : (([r].filter keepRowDropna).filter fun x => !rowMentionsTotal x) = [r] := by
      simp [List.filter_cons, hkeep, htot]
    rw [hrows]
    unfold uploadAfterFilters
    rw [hfind]
    simp only [List.foldl_cons, List.foldl_nil]
    unfold emailValueFalsy at hfalsy
    rcases hlk : alLookup (sanitize_field_name email_col)
        (buildEmployeeRecord companyId columns r) with _ | val
    · simp [uploadStep, hlk]
    · rcases val with _ | s
      · simp [uploadStep, hlk]
      · rw [hlk] at hfalsy
        have hs : s = "" := by simpa using hfalsy
        subst hs
        simp [uploadStep, hlk]

theorem claim6_witness :
    upload_employees "c1" ["Name"] ["Name"] [[("Name", some "x")]] [] =
        .error (500, "Upload failed: 400: No 'email' column found in uploaded sheet.") ∧
      upload_employees "c1" ["Email"] ["Email"] [[("Email", some "")]] [] =
        .ok ⟨0, 0, 1, []⟩ :=
  ⟨claim6_amended.1 "c1" ["Name"] ["Name"] [[("Name", some "x")]] [] (by decide) (by decide),
   claim6_amended.2 "c1" ["Email"] ["Email"] [] [("Email", some "")] "Email"
     (by decide) (by decide) (by decide) (by decide) (by decide)⟩

/-! ## Claim C10 — silent removal of "total" rows -/

theorem keepRowDropna_of_mentionsTotal {r : Rec} (h : rowMentionsTotal r = true) :
    keepRowDropna r = true := by
  unfold rowMentionsTotal at h
  rcases List.any_eq_true.mp h with ⟨kv, hkv, hp⟩
  unfold keepRowDropna
  apply List.any_eq_true.mpr
  refine ⟨kv, hkv, ?_⟩
  rcases kv with ⟨k, v⟩
  cases v with
  | none => simp at hp
  | some s => rfl

/-- Claim C10: a data row any of whose cells mentions "total"
(case-insensitively) is dropped by the line-87 filter before the row loop:
the whole upload behaves exactly as if the row were not in the batch — it
is neither inserted, updated, nor counted as skipped. -/
theorem claim10_total_rows_removed (companyId : String)
    (expected_columns columns : List String) (pre post : List Rec) (r : Rec)
    (db : List Rec) (h : rowMentionsTotal r = true) :
    upload_employees companyId expected_columns columns (pre ++ r :: post) db =
      upload_employees companyId expected_columns columns (pre ++ post) db := by
  have hkeep := keepRowDropna_of_mentionsTotal h
  unfold upload_employees
  by_cases hval : validate_excel_columns columns expected_columns = true
  · rw [if_pos hval, if_pos hval]
    have hrows : (((pre ++ r :: post).filter keepRowDropna).filter
          fun x => !rowMentionsTotal x) =
        (((pre ++ post).filter keepRowDropna).filter fun x => !rowMentionsTotal x) := by
      simp [List.filter_append, List.filter_cons, hkeep, h]
    rw [hrows]
  · rw [if_neg hval, if_neg hval]

theorem claim10_witness :
    rowMentionsTotal [("Email", some "Total Row")] = true ∧
      upload_employees "c1" ["Email"] ["Email"]
          ([] ++ [("Email", some "Total Row")] :: [[("Email", some "a@b.c")]]) [] =
        upload_employees "c1" ["Email"] ["Email"] ([] ++ [[("Email", some "a@b.c")]]) [] :=
  ⟨by decide,
   claim10_total_rows_removed "c1" ["Email"] ["Email"] [] [[("Email", some "a@b.c")]]
     [("Email", some "Total Row")] [] (by decide)⟩

/-! ## Generator lemmas: rows touched by each write segment -/

theorem headerWrites_row {w : SheetWrite} :
    ∀ (cols : List String) (sc : Nat), w ∈ headerWrites sc cols → w.1.1 = 3 := by
  intro cols
  induction cols with
  | nil => intro sc h; simp [headerWrites] at h
  | cons c rest ih =>
    intro sc h
    rw [headerWrites] at h
    rcases List.mem_cons.mp h with h1 | h2
    · rw [h1]
    · exact ih (sc + 1) h2

theorem rowWrites_row {w : SheetWrite} (r : Nat) (emp : Rec) :
    ∀ (cols : List String) (sc : Nat), w ∈ rowWrites r sc emp cols → w.1.1 = r := by
  intro cols
  induction cols with
  | nil => intro sc h; simp [rowWrites] at h
  | cons c rest ih =>
    intro sc h
    rw [rowWrites] at h
    rcases List.mem_cons.mp h with h1 | h2
    · rw [h1]
    · exact ih (sc + 1) h2

theorem dataWrites_row {w : SheetWrite} (columns : List String) :
    ∀ (emps : List Rec) (sr : Nat), w ∈ dataWrites sr columns emps →
      sr ≤ w.1.1 ∧ w.1.1 < sr + emps.length := by
  intro emps
  induction emps with
  | nil => intro sr h; simp [dataWrites] at h
  | cons emp rest ih =>
    intro sr h
    rw [dataWrites] at h
    rcases List.mem_append.mp h with h1 | h2
    · have hr := rowWrites_row sr emp columns 1 h1
      simp [hr]
    · have := ih (sr + 1) h2
      constructor <;> [omega; (simp only [List.length_cons]; omega)]

theorem formulaRowWrites_row {w : SheetWrite} (columns : List String)
    (mapping : List (String × String)) (r : Nat)
    (h : w ∈ formulaRowWrites columns mapping r) : w.1.1 = r := by
  unfold formulaRowWrites at h
  rcases List.mem_filterMap.mp h with ⟨e, _, hw⟩
  cases hfc : findColIdx columns e.1 with
  | none => rw [hfc] at hw; simp at hw
  | some c =>
    rw [hfc] at hw
    simp only [Option.map_some', Option.some.injEq] at hw
    rw [← hw]

theorem formulaWrites_row {w : SheetWrite} (columns : List String)
    (mapping : List (String × String)) :
    ∀ (n sr : Nat), w ∈ formulaWrites columns mapping sr n →
      sr ≤ w.1.1 ∧ w.1.1 < sr + n := by
  intro n
  induction n with
  | zero => intro sr h; simp [formulaWrites] at h
  | succ n ih =>
    intro sr h
    rw [formulaWrites] at h
    rcases List.mem_append.mp h with h1 | h2
    · have hr := formulaRowWrites_row columns mapping sr h1
      simp [hr]
    · have := ih (sr + 1) h2
      omega

/-! ## Claim C4 — no aggregate row -/

/-- A concrete generated workbook with one data row and a monetary column
("Basic Pay"): every write lies at sheet row ≤ 4 — there is no appended
aggregate row — and no formula mentioning `SUM` appears anywhere, refuting
the claimed SUM aggregate row. -/
theorem claim4_counterexample :
    ((create_excel_from_employees_with_formulas
        [[("basic pay", some "100")]] ["Basic Pay"] "ACME" "May- 25"
        [("Basic Pay", "=A{row}")]).all
      (fun w => decide (w.1.1 ≤ 4) &&
        (match w.2 with
         | .formula f => !strContains f "SUM"
         | .lit _ => true))) = true := by
  decide

/-- Claim C4, amended: the generator appends no aggregate row at all —
every write of `create_excel_from_employees_with_formulas` lies in the
title row (1), the header row (3), or a data row (`4 .. 3 + #records`);
no SUM row (and no write of any kind) follows the data rows. -/
theorem claim4_amended_no_aggregate_row (employees : List Rec) (columns : List String)
    (company_name month_year : String) (mapping : List (String × String))
    (w : SheetWrite)
    (hw : w ∈ create_excel_from_employees_with_formulas employees columns
      company_name month_year mapping) :
    w.1.1 = 1 ∨ w.1.1 = 3 ∨ (4 ≤ w.1.1 ∧ w.1.1 < 4 + employees.length) := by
  unfold create_excel_from_employees_with_formulas at hw
  rcases List.mem_append.mp hw with h | h
  · rcases List.mem_append.mp h with h | h
    · rcases List.mem_append.mp h with h | h
      · rcases List.mem_cons.mp h with h1 | h1
        · rw [h1]; exact Or.inl rfl
        · rcases List.mem_cons.mp h1 with h2 | h2
          · rw [h2]; exact Or.inl rfl
          · simp at h2
      · exact Or.inr (Or.inl (headerWrites_row columns 1 h))
    · exact Or.inr (Or.inr (dataWrites_row columns employees 4 h))
  · by_cases hm : mapping.isEmpty = true
    · rw [if_pos hm] at h
      simp at h
    · rw [if_neg hm] at h
      exact Or.inr (Or.inr (formulaWrites_row columns mapping employees.length 4 h))

theorem claim4_amended_witness :
    (((1, 1), CellWrite.lit (some "ACME SALARY SHEET")) ∈
        create_excel_from_employees_with_formulas
          [[("basic pay", some "100")]] ["Basic Pay"] "ACME" "May- 25" []) ∧
      ((1 : Nat) = 1 ∨ (1 : Nat) = 3 ∨ (4 ≤ (1 : Nat) ∧ (1 : Nat) < 4 + 1)) :=
  ⟨by decide,
   claim4_amended_no_aggregate_row [[("basic pay", some "100")]] ["Basic Pay"]
     "ACME" "May- 25" [] ((1, 1), CellWrite.lit (some "ACME SALARY SHEET")) (by decide)⟩

/-! ## Claim C5 — templated formula cells -/

/-- The template whose write lands last in a given column during the formula
pass: the *last* mapping entry whose key resolves (line 129-132,
case-insensitive, first matching column) to the 1-based column index
`cidx`.  With distinct column keys this is simply the column's entry. -/
def lastTemplateFor (columns : List String) (cidx : Nat) :
    List (String × String) → Option String
  | [] => none
  | e :: rest =>
    match lastTemplateFor columns cidx rest with
    | some t => some t
    | none => if findColIdx columns e.1 = some cidx then some e.2 else none

theorem cellAt_append (ws1 ws2 : List SheetWrite) (p : Nat × Nat) :
    cellAt (ws1 ++ ws2) p =
      match cellAt ws2 p with
      | some v => some v
      | none => cellAt ws1 p := by
  induction ws1 with
  | nil =>
    rw [List.nil_append]
    cases cellAt ws2 p <;> rfl
  | cons w rest ih =>
    rw [List.cons_append, cellAt, ih]
    cases cellAt ws2 p with
    | some v => rfl
    | none => rfl

theorem cellAt_eq_none_of_row_ne (ws : List SheetWrite) (p : Nat × Nat)
    (h : ∀ w ∈ ws, w.1.1 ≠ p.1) : cellAt ws p = none := by
  induction ws with
  | nil => rfl
  | cons w rest ih =>
    rw [cellAt, ih (fun w' hw' => h w' (List.mem_cons_of_mem w hw'))]
    have hne : w.1 ≠ p := by
      intro he
      exact h w (List.mem_cons_self w rest) (by rw [he])
    simp [hne]

theorem cellAt_formulaRowWrites (columns : List String)
    (mapping : List (String × String)) (r cidx : Nat) :
    cellAt (formulaRowWrites columns mapping r) (r, cidx) =
      (lastTemplateFor columns cidx mapping).map
        (fun t => CellWrite.formula (applyFormulaTemplate t r)) := by
  induction mapping with
  | nil => rfl
  | cons e rest ih =>
    have hlast : lastTemplateFor columns cidx (e :: rest) =
        (match lastTemplateFor columns cidx rest with
         | some t => some t
         | none => if findColIdx columns e.1 = some cidx then some e.2 else none) := rfl
    cases hfc : findColIdx columns e.1 with
    | none =>
      have hw : formulaRowWrites columns (e :: rest) r = formulaRowWrites columns rest r := by
        unfold formulaRowWrites
        rw [List.filterMap_cons, hfc]
        rfl
      rw [hw, ih, hlast]
      cases hl : lastTemplateFor columns cidx rest with
      | some t => rfl
      | none => simp [hfc]
    | some c =>
      have hw : formulaRowWrites columns (e :: rest) r =
          ((r, c), CellWrite.formula (applyFormulaTemplate e.2 r)) ::
            formulaRowWrites columns rest r := by
        unfold formulaRowWrites
        rw [List.filterMap_cons, hfc]
        rfl
      rw [hw, cellAt, ih, hlast]
      cases hl : lastTemplateFor columns cidx rest with
      | some t => rfl
      | none =>
        simp only [Option.map_none']
        by_cases hc : c = cidx
        · subst hc
          simp [hfc]
        · have h1 : ((r, c) : Nat × Nat) ≠ (r, cidx) := by
            simp [Prod.ext_iff, hc]
          have h2 : ¬(findColIdx columns e.1 = some cidx) := by
            rw [hfc]
            simp [hc]
          simp [h1, h2]

theorem cellAt_formulaWrites (columns : List String) (mapping : List (String × String)) :
    ∀ (n sr i cidx : Nat), i < n →
      cellAt (formulaWrites columns mapping sr n) (sr + i, cidx) =
        (lastTemplateFor columns cidx mapping).map
          (fun t => CellWrite.formula (applyFormulaTemplate t (sr + i))) := by
  intro n
  induction n with
  | zero => intro sr i cidx h; omega
  | succ n ih =>
    intro sr i cidx hi
    rw [formulaWrites, cellAt_append]
    cases i with
    | zero =>
      have hnone : cellAt (formulaWrites columns mapping (sr + 1) n) (sr + 0, cidx) = none := by
        apply cellAt_eq_none_of_row_ne
        intro w hw
        have := formulaWrites_row columns mapping n (sr + 1) hw
        simp only []
        omega
      rw [hnone]
      simpa using cellAt_formulaRowWrites columns mapping sr cidx
    | succ j =>
      have heq : sr + (j + 1) = (sr + 1) + j := by omega
      rw [heq, ih (sr + 1) j cidx (by omega)]
      cases hl : lastTemplateFor columns cidx mapping with
      | some t => rfl
      | none =>
        simp only [Option.map_none']
        apply cellAt_eq_none_of_row_ne
        intro w hw
        have := formulaRowWrites_row columns mapping sr hw
        simp only []
        omega

/-- Claim C5: whenever the formula map resolves to column `cidx` (with
`tmpl` the winning entry's template) and `i` indexes a record, the
generated cell at data row `4 + i` holds the formula obtained by
substituting the concrete row index for `{row}` — the literal written
earlier by `df.to_excel` is overwritten and no computed value is stored. -/
theorem claim5_formula_cells (employees : List Rec) (columns : List String)
    (company_name month_year : String) (mapping : List (String × String))
    (i cidx : Nat) (tmpl : String) (hi : i < employees.length)
    (ht : lastTemplateFor columns cidx mapping = some tmpl) :
    cellAt (create_excel_from_employees_with_formulas employees columns
        company_name month_year mapping) (4 + i, cidx) =
      some (.formula (applyFormulaTemplate tmpl (4 + i))) := by
  have hne : mapping.isEmpty = false := by
    cases mapping with
    | nil => rw [lastTemplateFor] at ht; exact absurd ht (by simp)
    | cons e rest => rfl
  unfold create_excel_from_employees_with_formulas
  rw [if_neg (by simp [hne]), cellAt_append,
    cellAt_formulaWrites columns mapping employees.length 4 i cidx hi, ht]
  rfl

theorem claim5_formula_cells_witness :
    ((0 < 1) ∧
      lastTemplateFor ["Basic Pay", "Gross Amt"] 2 [("gross amt", "=A{row}")] =
        some "=A{row}") ∧
      cellAt (create_excel_from_employees_with_formulas
          [[("basic pay", some "100")]] ["Basic Pay", "Gross Amt"] "ACME" "May- 25"
          [("gross amt", "=A{row}")]) (4 + 0, 2) =
        some (.formula (applyFormulaTemplate "=A{row}" (4 + 0))) :=
  ⟨⟨by decide, by decide⟩,
   claim5_formula_cells [[("basic pay", some "100")]] ["Basic Pay", "Gross Amt"]
     "ACME" "May- 25" [("gross amt", "=A{row}")] 0 2 "=A{row}" (by decide) (by decide)⟩

/-! ## Claim C9 — export fallback uses `get_column_letter` before its import -/

theorem buildParts_error_of_ne_nil (l : List (String × Nat)) (h : l ≠ []) :
    buildParts none l = .error (.unboundLocal "get_column_letter") := by
  cases l with
  | nil => exact absurd rfl h
  | cons e rest => rfl

/-- Claim C9: with an empty stored formula map, whenever the canonical
columns contain a gross-amount column plus at least one allowance-like
component at a different index (or a total-deduction column plus a
deduction-like component), the fallback synthesis reaches a use of the
local name `get_column_letter` before the line-374 import binds it, so the
export raises `UnboundLocalError` (surfaced by the web layer as an internal
error) and never produces workbook bytes. -/
theorem claim9_export_fallback_unbound (columns : List String) (employees : List Rec)
    (companyName monthYear : String) (ge de : String × Nat)
    (h : ((columnIndices columns).find? grossPred = some ge ∧
          allowEntries (columnIndices columns) ge.2 ≠ []) ∨
         ((columnIndices columns).find? dedPred = some de ∧
          dedEntries (columnIndices columns) de.2 ≠ [])) :
    export_employees columns [] employees companyName monthYear =
      .error (.unboundLocal "get_column_letter") := by
  have hcdf : computeDefaultFormulas none columns =
      .error (.unboundLocal "get_column_letter") := by
    rcases h with ⟨hg, hne⟩ | ⟨hd, hne⟩
    · simp only [computeDefaultFormulas, hg, buildParts_error_of_ne_nil _ hne]
    · cases hg' : (columnIndices columns).find? grossPred with
      | none =>
        simp only [computeDefaultFormulas, hg', hd, buildParts_error_of_ne_nil _ hne]
      | some ge' =>
        cases hae : allowEntries (columnIndices columns) ge'.2 with
        | nil =>
          simp only [computeDefaultFormulas, hg', hae, hd,
            buildParts_error_of_ne_nil _ hne]
          rfl
        | cons a arest =>
          simp only [computeDefaultFormulas, hg', hae]
          rfl
  simp only [export_employees, hcdf]
  rfl

theorem claim9_witness :
    ((columnIndices ["Gross Amount", "Basic Pay"]).find? grossPred =
        some ("gross amount", 0) ∧
      allowEntries (columnIndices ["Gross Amount", "Basic Pay"]) 0 ≠ []) ∧
      export_employees ["Gross Amount", "Basic Pay"] [] [] "ACME" "May- 25" =
        .error (.unboundLocal "get_column_letter") :=
  ⟨⟨by decide, by decide⟩,
   claim9_export_fallback_unbound ["Gross Amount", "Basic Pay"] [] "ACME" "May- 25"
     ("gross amount", 0) ("gross amount", 0) (Or.inl ⟨by decide, by decide⟩)⟩

end CES
